import Mathlib

/-!
Verification of the Langu pyBackend word-selection service
(`pyBackend/fine_tune.py`) against its natural-language specification.

The external pretrained models are out of scope and appear as opaque
parameters: the spaCy lemmatizer is modelled as the list of `(lemma_, pos_)`
tokens it produces for a phrase, the sentence-embedding model as a function
from text to a vector (or directly as the row of cosine similarities it
induces), and the filesystem as a predicate on path strings.  Python floats
are modelled by exact rationals `ℚ`; Python `list`s by `List`, Python `set`s
by deduplicated lists (iteration order of a Python set is unspecified, and
every property proved below is insensitive to that order).
-/

namespace Langu

/-- Model of Python's `str.lower()` (character-wise case mapping).  Core's
`String.toLower` is the same function but is defined by well-founded
recursion over byte positions, which concrete witnesses cannot evaluate, so
the structurally recursive form over the character list is used instead. -/
def lower (s : String) : String := ⟨s.data.map Char.toLower⟩

/-- One spaCy token, with the two attributes `fine_tune.py` reads:
`word.lemma_` and `word.pos_` (the coarse Universal-POS tag). -/
structure Token where
  lemma_ : String
  pos_ : String
deriving DecidableEq

/-- The part-of-speech filter list of `SmartWordSelector.validate_phrase`
(fine_tune.py line 143): `["PUNCT", "SYM", "X", "CD", "ADP"]`. -/
def excluded_pos : List String := ["PUNCT", "SYM", "X", "CD", "ADP"]

/-- The tokens of the document that survive the POS filter of
`validate_phrase` (the loop body is skipped exactly when
`word.pos_ in ["PUNCT", "SYM", "X", "CD", "ADP"]`). -/
def kept_tokens (doc : List Token) : List Token :=
  doc.filter (fun t => decide (t.pos_ ∉ excluded_pos))

/-- The lowercased lemmas of the surviving tokens, with multiplicity: the
stream from which `validate_phrase` builds both the set `actual_words`
(deduplicated) and the counter `total_words` (one increment per token). -/
def kept_lemmas (doc : List Token) : List String :=
  (kept_tokens doc).map (fun t => lower t.lemma_)

/-- Embedding of `SmartWordSelector.validate_phrase` (fine_tune.py lines
126-158): `actual_words` is the set of lowercased lemmas of the surviving
tokens, `total_words` counts the surviving tokens with multiplicity,
`number_of_exceptions` counts the members of `actual_words` missing from the
curated set, and the result is `(total_words - number_of_exceptions) /
total_words * 100`, or `0` when `total_words == 0`. -/
def validate_phrase (doc : List Token) (curated : List String) : ℚ :=
  let actual_words := (kept_lemmas doc).dedup
  let total_words : ℕ := (kept_tokens doc).length
  let number_of_exceptions : ℕ :=
    (actual_words.filter (fun w => decide (w ∉ curated))).length
  if total_words = 0 then 0
  else ((total_words : ℚ) - (number_of_exceptions : ℚ)) / (total_words : ℚ) * 100

/-- Modelled from the spec's words (section 4.3), for comparison with
`validate_phrase`: lowercase and deduplicate the unfiltered lemmas into a
set `S`; return `0` if `S` is empty and `100 * |S ∩ curated| / |S|`
otherwise. -/
def validate_phrase_spec (doc : List Token) (curated : List String) : ℚ :=
  let S := (kept_lemmas doc).dedup

  if S.length = 0 then 0
  else 100 * ((S.filter (fun w => decide (w ∈ curated))).length : ℚ) / (S.length : ℚ)

theorem kept_lemmas_length (doc : List Token) :
    (kept_lemmas doc).length = (kept_tokens doc).length := by
  simp [kept_lemmas]

/-- C1 counterexample: on a phrase whose two tokens share the non-curated
lemma "hund", the code returns `(2-1)/2*100 = 50` (the denominator counts
tokens with multiplicity while exceptions are counted once per distinct
lemma), but the claimed formula `100*|S ∩ C|/|S|` gives `0`. -/
theorem validate_phrase_c1_counterexample :
    validate_phrase [⟨"hund", "NOUN"⟩, ⟨"hund", "NOUN"⟩] [] = 50 ∧
    validate_phrase_spec [⟨"hund", "NOUN"⟩, ⟨"hund", "NOUN"⟩] [] = 0 := by
  constructor
  · have h1 : (kept_tokens [⟨"hund", "NOUN"⟩, ⟨"hund", "NOUN"⟩]).length = 2 := by decide
    have h2 : ((kept_lemmas [⟨"hund", "NOUN"⟩, ⟨"hund", "NOUN"⟩]).dedup.filter
        (fun w => decide (w ∉ ([] : List String)))).length = 1 := by decide
    rw [validate_phrase, h1, h2]
    norm_num
  · have h1 : (kept_lemmas [⟨"hund", "NOUN"⟩, ⟨"hund", "NOUN"⟩]).dedup.length = 1 := by decide
    have h2 : ((kept_lemmas [⟨"hund", "NOUN"⟩, ⟨"hund", "NOUN"⟩]).dedup.filter
        (fun w => decide (w ∈ ([] : List String)))).length = 0 := by decide
    rw [validate_phrase_spec, h1, h2]
    norm_num

/-- C1 (amended): `validate_phrase` agrees with the spec formula
`100*|S ∩ C|/|S|` whenever the kept lowercased lemmas are duplicate-free
(in general its denominator counts kept tokens with multiplicity while
exceptions are counted once per distinct lemma); unconditionally it returns
`0` when no token survives the POS filter, and `100` when some token
survives and every kept lemma is curated. -/
theorem validate_phrase_correct (doc : List Token) (curated : List String) :
    ((kept_lemmas doc).Nodup →
      validate_phrase doc curated = validate_phrase_spec doc curated) ∧
    (kept_lemmas doc = [] → validate_phrase doc curated = 0) ∧
    (kept_lemmas doc ≠ [] → (∀ w ∈ kept_lemmas doc, w ∈ curated) →
      validate_phrase doc curated = 100) := by
  have hlen : (kept_lemmas doc).length = (kept_tokens doc).length :=
    kept_lemmas_length doc
  refine ⟨?_, ?_, ?_⟩
  · intro hnd
    have hded : (kept_lemmas doc).dedup = kept_lemmas doc := List.dedup_eq_self.mpr hnd
    simp only [validate_phrase, validate_phrase_spec, hded, ← hlen]
    by_cases h0 : (kept_lemmas doc).length = 0
    · simp [h0]
    · have hpart : (kept_lemmas doc).length =
          ((kept_lemmas doc).filter (fun w => decide (w ∈ curated))).length +
          ((kept_lemmas doc).filter (fun w => decide (w ∉ curated))).length := by
        simpa [decide_not] using
          List.length_eq_length_filter_add (l := kept_lemmas doc)
            (fun w => decide (w ∈ curated))

      rw [if_neg h0, if_neg h0, hpart]
      push_cast
      ring
  · intro h
    have h0 : (kept_tokens doc).length = 0 := by rw [← hlen, h]; rfl
    simp [validate_phrase, h0]
  · intro hne hall
    have h0 : (kept_tokens doc).length ≠ 0 := by
      rw [← hlen]
      exact (List.length_pos.mpr hne).ne'
    have hexc : ((kept_lemmas doc).dedup.filter (fun w => decide (w ∉ curated))) = [] := by
      rw [List.filter_eq_nil_iff]
      intro w hw
      simpa using List.mem_dedup.mp hw |> hall w
    have hq : ((kept_tokens doc).length : ℚ) ≠ 0 := Nat.cast_ne_zero.mpr h0
    simp only [validate_phrase, hexc]
    rw [if_neg h0]
    simp [div_self hq]

/-- Witness for `validate_phrase_correct`: a one-token phrase whose lemma is
curated scores 100. -/
theorem validate_phrase_correct_witness :
    (kept_lemmas [⟨"haus", "NOUN"⟩] ≠ [] ∧
      ∀ w ∈ kept_lemmas [⟨"haus", "NOUN"⟩], w ∈ ["haus"]) ∧
    validate_phrase [⟨"haus", "NOUN"⟩] ["haus"] = 100 :=
  ⟨⟨by decide, by decide⟩,
    (validate_phrase_correct [⟨"haus", "NOUN"⟩] ["haus"]).2.2 (by decide) (by decide)⟩

/-- C4: a numeral token is NOT excluded.  spaCy's `word.pos_` is a coarse
Universal-POS tag, which for numerals is `"NUM"`; the filter list of
`validate_phrase` contains the fine-grained Penn-Treebank tag `"CD"`
instead, which `pos_` never equals, so numeral tokens pass the filter and
contribute both to the lemma set and to the denominator: a phrase
consisting of the single numeral token `fünf` scores 100 when `fünf` is
curated (the claim would make the lemma set empty and the score 0). -/
theorem validate_phrase_counts_numerals :
    ("NUM" ∉ excluded_pos) ∧
    kept_tokens [⟨"fünf", "NUM"⟩] = [⟨"fünf", "NUM"⟩] ∧
    validate_phrase [⟨"fünf", "NUM"⟩] ["fünf"] = 100 := by
  refine ⟨by decide, by decide, ?_⟩
  have h1 : (kept_tokens [⟨"fünf", "NUM"⟩]).length = 1 := by decide
  have h2 : ((kept_lemmas [⟨"fünf", "NUM"⟩]).dedup.filter
      (fun w => decide (w ∉ (["fünf"] : List String)))).length = 0 := by decide
  rw [validate_phrase, h1, h2]
  norm_num

/-- Comparison of two dictionary indices by similarity score: the order by
which `np.argsort(similarities)` arranges the index range.  `sims` is the
row `cosine_similarity(context_embedding, self.embeddings)[0]` produced by
the opaque embedding model, one score per word, positionally aligned with
the word list. -/
def simLe (sims : List ℚ) (i j : ℕ) : Prop :=
  sims.getD i 0 ≤ sims.getD j 0

instance (sims : List ℚ) : DecidableRel (simLe sims) := fun i j =>
  inferInstanceAs (Decidable (sims.getD i 0 ≤ sims.getD j 0))

instance (sims : List ℚ) : IsTotal ℕ (simLe sims) :=
  ⟨fun _ _ => le_total _ _⟩

instance (sims : List ℚ) : IsTrans ℕ (simLe sims) :=
  ⟨fun _ _ _ => le_trans⟩

/-- Model of `np.argsort(similarities)`: the indices `0 .. n-1` ordered by
ascending similarity.  NumPy's default sort is unstable, so ties are broken
arbitrarily; insertion sort realizes one admissible tie order and no theorem
below depends on which one is taken. -/
def argsort (sims : List ℚ) : List ℕ :=
  List.insertionSort (simLe sims) (List.range sims.length)

/-- Model of the Python slice `xs[-top_k:]`: for `top_k = 0` the bound `-0`
is `0`, so the whole list is taken; otherwise the last `top_k` elements (all
of them when `top_k ≥ len(xs)`). -/
def pyTailSlice (top_k : ℕ) (xs : List ℕ) : List ℕ :=
  if top_k = 0 then xs else xs.drop (xs.length - top_k)

/-- The index list `top_indices = np.argsort(similarities)[-top_k:][::-1]`
of `SmartWordSelector.find_relevant_words` (fine_tune.py line 102). -/
def top_indices (sims : List ℚ) (top_k : ℕ) : List ℕ :=
  (pyTailSlice top_k (argsort sims)).reverse

/-- Embedding of `SmartWordSelector.find_relevant_words` (fine_tune.py lines
84-105): `[self.words[i] for i in top_indices]`.  `getD` with default `""`
models the indexing `self.words[i]`; under the matrix/word-list alignment
the index is always in range and the default is never read. -/
def find_relevant_words (words : List String) (sims : List ℚ) (top_k : ℕ) : List String :=
  (top_indices sims top_k).map (fun i => words.getD i "")

/-- Embedding of `SmartWordSelector.find_words_by_topics` (fine_tune.py
lines 107-124): one `find_relevant_words` call per topic, results unioned
into the set `all_relevant_words` and returned as `list(...)`.  `simsOf t`
is the similarity row the opaque embedding model yields for topic `t`; the
Python set is modelled as a deduplicated list in first-occurrence order (set
iteration order is unspecified, and the properties proved below are
insensitive to it). -/
def find_words_by_topics (words : List String) (simsOf : String → List ℚ)
    (topics : List String) (words_per_topic : ℕ) : List String :=
  ((topics.map (fun t => find_relevant_words words (simsOf t) words_per_topic)).flatten).dedup

theorem argsort_perm (sims : List ℚ) : (argsort sims).Perm (List.range sims.length) :=
  List.perm_insertionSort _ _

theorem argsort_nodup (sims : List ℚ) : (argsort sims).Nodup :=
  (argsort_perm sims).symm.nodup (List.nodup_range _)

theorem argsort_length (sims : List ℚ) : (argsort sims).length = sims.length := by
  simpa using (argsort_perm sims).length_eq

theorem argsort_sorted (sims : List ℚ) : List.Sorted (simLe sims) (argsort sims) :=
  List.sorted_insertionSort _ _

theorem mem_argsort_lt (sims : List ℚ) {i : ℕ} (hi : i ∈ argsort sims) :
    i < sims.length :=
  List.mem_range.mp ((argsort_perm sims).mem_iff.mp hi)

theorem pyTailSlice_sublist (top_k : ℕ) (xs : List ℕ) :
    (pyTailSlice top_k xs).Sublist xs := by
  rw [pyTailSlice]
  split
  · exact List.Sublist.refl xs
  · exact List.drop_sublist _ xs

theorem pyTailSlice_eq_self {top_k : ℕ} (xs : List ℕ)
    (h : top_k = 0 ∨ xs.length ≤ top_k) : pyTailSlice top_k xs = xs := by
  rw [pyTailSlice]
  rcases h with h | h
  · simp [h]
  · split
    · rfl
    · simp [Nat.sub_eq_zero_of_le h]

theorem pyTailSlice_length {top_k : ℕ} (xs : List ℕ) (h1 : 0 < top_k)
    (h2 : top_k ≤ xs.length) : (pyTailSlice top_k xs).length = top_k := by
  rw [pyTailSlice, if_neg h1.ne', List.length_drop]
  omega

theorem map_getD_range {α : Type} (l : List α) (d : α) :
    (List.range l.length).map (fun i => l.getD i d) = l := by
  induction l with
  | nil => rfl
  | cons a t ih =>
    rw [List.length_cons, List.range_succ_eq_map, List.map_cons, List.map_map]
    have hc : ((fun i => (a :: t).getD i d) ∘ Nat.succ) = fun i => t.getD i d := by
      funext i
      simp [List.getD]
    rw [hc, ih]
    simp [List.getD]

theorem top_indices_nodup (sims : List ℚ) (top_k : ℕ) :
    (top_indices sims top_k).Nodup :=
  List.nodup_reverse.mpr ((pyTailSlice_sublist _ _).nodup (argsort_nodup sims))

theorem mem_top_indices_lt (sims : List ℚ) (top_k : ℕ) {i : ℕ}
    (hi : i ∈ top_indices sims top_k) : i < sims.length :=
  mem_argsort_lt sims ((pyTailSlice_sublist _ _).mem (List.mem_reverse.mp hi))

theorem top_indices_pairwise (sims : List ℚ) (top_k : ℕ) :
    (top_indices sims top_k).Pairwise (fun i j => sims.getD j 0 ≤ sims.getD i 0) := by
  rw [top_indices, List.pairwise_reverse]
  exact List.Pairwise.sublist (pyTailSlice_sublist _ _) (argsort_sorted sims)

/-- C5 counterexample: `_load_words` does not deduplicate the word list
(only blank lines are dropped), so on the word list `["a", "a"]` with
`top_k = 2` the function returns `["a", "a"]` — two positions, but not two
distinct words as the claim requires for every word list. -/
theorem find_relevant_words_c5_counterexample :
    find_relevant_words ["a", "a"] [0, 1] 2 = ["a", "a"] ∧
    (find_relevant_words ["a", "a"] [0, 1] 2).count "a" = 2 := by
  constructor <;> decide

/-- C5 (amended): provided the word list is duplicate-free (and positionally
aligned with the similarity row), `find_relevant_words` with `0 < top_k ≤
|W|` returns exactly `top_k` distinct words drawn from `W`, ordered by
non-increasing similarity, and with `top_k > |W|` returns all words of `W`
in that order.  For a word list with duplicates the returned positions are
still distinct but the word strings need not be. -/
theorem find_relevant_words_spec (words : List String) (sims : List ℚ) (top_k : ℕ)
    (hlen : sims.length = words.length) (hnd : words.Nodup) (hk : 0 < top_k) :
    (top_k ≤ words.length → (find_relevant_words words sims top_k).length = top_k) ∧
    (words.length ≤ top_k → (find_relevant_words words sims top_k).Perm words) ∧
    (find_relevant_words words sims top_k).Nodup ∧
    (∀ w ∈ find_relevant_words words sims top_k, w ∈ words) ∧
    (find_relevant_words words sims top_k).Chain'
      (fun a b => sims.getD (words.indexOf b) 0 ≤ sims.getD (words.indexOf a) 0) := by
  have hidx : ∀ i ∈ top_indices sims top_k, i < words.length := fun i hi =>
    hlen ▸ mem_top_indices_lt sims top_k hi
  refine ⟨?_, ?_, ?_, ?_, ?_⟩
  · intro hle
    rw [find_relevant_words, List.length_map, top_indices, List.length_reverse,
      pyTailSlice_length _ hk (by rw [argsort_length, hlen]; exact hle)]
  · intro hge
    have hslice : pyTailSlice top_k (argsort sims) = argsort sims :=
      pyTailSlice_eq_self _ (Or.inr (by rw [argsort_length, hlen]; exact hge))
    have h2 : (List.range sims.length).map (fun i => words.getD i "") = words := by
      rw [hlen]
      exact map_getD_range words ""
    rw [find_relevant_words, top_indices, hslice]
    conv_rhs => rw [← h2]
    exact List.Perm.map _ ((List.reverse_perm _).trans (argsort_perm sims))
  · rw [find_relevant_words]
    refine List.Nodup.map_on ?_ (top_indices_nodup sims top_k)
    intro i hi j hj hij
    have hi' := hidx i hi
    have hj' := hidx j hj
    rw [List.getD_eq_getElem words "" hi', List.getD_eq_getElem words "" hj'] at hij
    have hii := List.indexOf_getElem hnd i hi'
    rw [← hii, hij, List.indexOf_getElem hnd j hj']
  · intro w hw
    rw [find_relevant_words] at hw
    obtain ⟨i, hi, rfl⟩ := List.mem_map.mp hw
    rw [List.getD_eq_getElem words "" (hidx i hi)]
    exact List.getElem_mem _
  · refine List.Pairwise.chain' ?_
    rw [find_relevant_words, List.pairwise_map]
    refine (top_indices_pairwise sims top_k).imp_of_mem ?_
    intro i j hi hj hle
    rw [List.getD_eq_getElem words "" (hidx i hi), List.getD_eq_getElem words "" (hidx j hj),
      List.indexOf_getElem hnd i (hidx i hi), List.indexOf_getElem hnd j (hidx j hj)]
    exact hle

/-- Witness for `find_relevant_words_spec` on a two-word dictionary with
`top_k = 1`. -/
theorem find_relevant_words_spec_witness :
    ([(1 : ℚ), 0].length = ["a", "b"].length ∧ (["a", "b"] : List String).Nodup ∧
      0 < 1 ∧ 1 ≤ (["a", "b"] : List String).length) ∧
    (find_relevant_words ["a", "b"] [1, 0] 1).length = 1 :=
  ⟨⟨rfl, by decide, by decide, by decide⟩,
    (find_relevant_words_spec ["a", "b"] [1, 0] 1 rfl (by decide) (by decide)).1 (by decide)⟩

/-- C10: with `top_k = 0` the slice `[-0:]` is `[0:]` and selects the whole
sorted index array, so `find_relevant_words` returns every word of a
non-empty dictionary in descending similarity order — not the empty list. -/
theorem find_relevant_words_top_k_zero (words : List String) (sims : List ℚ)
    (hlen : sims.length = words.length) (hne : words ≠ []) :
    top_indices sims 0 = (argsort sims).reverse ∧
    (find_relevant_words words sims 0).Perm words ∧
    find_relevant_words words sims 0 ≠ [] ∧
    (top_indices sims 0).Chain' (fun i j => sims.getD j 0 ≤ sims.getD i 0) := by
  have hslice : pyTailSlice 0 (argsort sims) = argsort sims :=
    pyTailSlice_eq_self _ (Or.inl rfl)
  have h2 : (List.range sims.length).map (fun i => words.getD i "") = words := by
    rw [hlen]
    exact map_getD_range words ""
  have hperm : (find_relevant_words words sims 0).Perm words := by
    rw [find_relevant_words, top_indices, hslice]
    conv_rhs => rw [← h2]
    exact List.Perm.map _ ((List.reverse_perm _).trans (argsort_perm sims))
  refine ⟨by rw [top_indices, hslice], hperm, ?_,
    (top_indices_pairwise sims 0).chain'⟩
  intro h
  exact hne (List.perm_nil.mp ((h ▸ hperm).symm))

/-- Witness for `find_relevant_words_top_k_zero` on the one-word dictionary
`["x"]`. -/
theorem find_relevant_words_top_k_zero_witness :
    ([(0 : ℚ)].length = ["x"].length ∧ (["x"] : List String) ≠ []) ∧
    (find_relevant_words ["x"] [0] 0).Perm ["x"] :=
  ⟨⟨rfl, by decide⟩, (find_relevant_words_top_k_zero ["x"] [0] rfl (by decide)).2.1⟩

/-- C9: `find_words_by_topics` returns a duplicate-free list whose members
are exactly the union over the topics of the per-topic
`find_relevant_words` results. -/
theorem find_words_by_topics_spec (words : List String) (simsOf : String → List ℚ)
    (topics : List String) (words_per_topic : ℕ) (_hpos : 0 < words_per_topic) :
    (find_words_by_topics words simsOf topics words_per_topic).Nodup ∧
    ∀ w, w ∈ find_words_by_topics words simsOf topics words_per_topic ↔
      ∃ t ∈ topics, w ∈ find_relevant_words words (simsOf t) words_per_topic := by
  constructor
  · rw [find_words_by_topics]
    exact List.nodup_dedup _
  · intro w
    rw [find_words_by_topics, List.mem_dedup, List.mem_flatten]
    constructor
    · rintro ⟨l, hl, hw⟩
      obtain ⟨t, ht, rfl⟩ := List.mem_map.mp hl
      exact ⟨t, ht, hw⟩
    · rintro ⟨t, ht, hw⟩
      exact ⟨_, List.mem_map_of_mem _ ht, hw⟩

/-- Witness for `find_words_by_topics_spec` on a single topic. -/
theorem find_words_by_topics_spec_witness :
    0 < 1 ∧ (find_words_by_topics ["a"] (fun _ => [1]) ["wetter"] 1).Nodup :=
  ⟨by decide, (find_words_by_topics_spec ["a"] (fun _ => [1]) ["wetter"] 1 (by decide)).1⟩

/-- One persisted embedding-cache entry: the pickled dict
`{'words': ..., 'embeddings': ...}` written by
`_load_or_create_embeddings`.  `α` is the opaque type of one embedding
vector; the matrix is the list of rows, positionally aligned with
`words`. -/
structure CacheEntry (α : Type) where
  words : List String
  embeddings : List α

/-- Embedding of `SmartWordSelector._load_or_create_embeddings`
(fine_tune.py lines 61-82).  `encode` is the opaque batch call
`self.model.encode`; `cache` is the persisted entry at `self.cache_path`
(`none` when `os.path.exists` is false).  Returns the in-memory matrix, the
entry on disk when the call returns, and a flag recording whether the
recompute path ran (`true` exactly when `model.encode` was called and the
cache rewritten — instrumentation, so that reuse is observable). -/
def load_or_create_embeddings {α : Type} (encode : List String → List α)
    (cache : Option (CacheEntry α)) (words : List String) :
    List α × Option (CacheEntry α) × Bool :=
  match cache with
  | some c =>
    if c.words = words then (c.embeddings, some c, false)
    else (encode words, some ⟨words, encode words⟩, true)
  | none => (encode words, some ⟨words, encode words⟩, true)

/-- C6: the persisted matrix is reused exactly when a cache entry exists
whose stored word list equals the current one, and then nothing is
rewritten; in every other case the matrix is recomputed by the embedding
call on the whole current list and the new (word list, matrix) pair
overwrites the cache. -/
theorem load_or_create_embeddings_policy {α : Type} (encode : List String → List α)
    (cache : Option (CacheEntry α)) (words : List String) :
    ((load_or_create_embeddings encode cache words).2.2 = false ↔
      ∃ c, cache = some c ∧ c.words = words) ∧
    (∀ c, cache = some c → c.words = words →
      load_or_create_embeddings encode cache words = (c.embeddings, some c, false)) ∧
    ((∀ c, cache = some c → c.words ≠ words) →
      load_or_create_embeddings encode cache words =
        (encode words, some ⟨words, encode words⟩, true)) := by
  refine ⟨?_, ?_, ?_⟩
  · cases cache with
    | none => simp [load_or_create_embeddings]
    | some c =>
      by_cases h : c.words = words <;> simp [load_or_create_embeddings, h]
  · rintro c rfl h
    simp [load_or_create_embeddings, h]
  · intro h
    cases cache with
    | none => rfl
    | some c => simp [load_or_create_embeddings, h c rfl]

/-- Witness for `load_or_create_embeddings_policy`: a matching cache entry
is reused unchanged. -/
theorem load_or_create_embeddings_policy_witness :
    ((some ⟨["hallo"], [5]⟩ : Option (CacheEntry ℕ)) = some ⟨["hallo"], [5]⟩ ∧
      (⟨["hallo"], [5]⟩ : CacheEntry ℕ).words = ["hallo"]) ∧
    load_or_create_embeddings (fun ws => ws.map String.length)
      (some ⟨["hallo"], [5]⟩) ["hallo"] = ([5], some ⟨["hallo"], [5]⟩, false) :=
  ⟨⟨rfl, rfl⟩,
    (load_or_create_embeddings_policy (fun ws => ws.map String.length)
      (some ⟨["hallo"], [5]⟩) ["hallo"]).2.1 ⟨["hallo"], [5]⟩ rfl rfl⟩

/-- Model of Python's `str.strip()`: drop leading and trailing whitespace.
(Core's `String.trim` is the same function but defined by position
arithmetic that concrete witnesses cannot evaluate.) -/
def pyStrip (s : String) : String :=
  ⟨((s.data.dropWhile Char.isWhitespace).reverse.dropWhile Char.isWhitespace).reverse⟩

/-- Embedding of `SmartWordSelector._load_words` (fine_tune.py lines
52-59): `[word.strip() for word in f.readlines() if word.strip()]` —
blank-stripped non-empty lines, duplicates NOT removed. -/
def load_words (fileLines : List String) : List String :=
  (fileLines.map pyStrip).filter (fun w => decide (w ≠ ""))

/-- Embedding of `SmartWordSelector.reload_from_disk` (fine_tune.py lines
47-50): `_load_words` followed by `_load_or_create_embeddings` — which is
also exactly what `__init__` runs (lines 44-45), so the same function
models the state after initialization.  The result is the selector state
`(self.words, self.embeddings)`, the on-disk cache entry, and the
recompute flag. -/
def reload_from_disk {α : Type} (encode : List String → List α)
    (fileLines : List String) (cache : Option (CacheEntry α)) :
    (List String × List α) × Option (CacheEntry α) × Bool :=
  let ws := load_words fileLines
  let r := load_or_create_embeddings encode cache ws
  ((ws, r.1), r.2)

/-- C7: after `__init__` and after every `reload_from_disk` the embedding
matrix has exactly one row per word of the word list, provided the
embedding call returns one vector per input and any pre-existing cache
entry is well-formed (as every entry this code writes is — the second
conjunct); and whenever the stored word list differs from the current one
the cached matrix is discarded and the matrix rebuilt by the embedding
call. -/
theorem reload_from_disk_invariant {α : Type} (encode : List String → List α)
    (fileLines : List String) (cache : Option (CacheEntry α))
    (hEncode : ∀ ws : List String, (encode ws).length = ws.length)
    (hWF : ∀ c, cache = some c → c.embeddings.length = c.words.length) :
    ((reload_from_disk encode fileLines cache).1.2).length =
      ((reload_from_disk encode fileLines cache).1.1).length ∧
    (∀ c, (reload_from_disk encode fileLines cache).2.1 = some c →
      c.embeddings.length = c.words.length) ∧
    (∀ c, cache = some c → c.words ≠ load_words fileLines →
      (reload_from_disk encode fileLines cache).1.2 = encode (load_words fileLines)) := by
  cases cache with
  | none =>
    refine ⟨by simp [reload_from_disk, load_or_create_embeddings, hEncode], ?_, ?_⟩
    · rintro c hc
      simp only [reload_from_disk, load_or_create_embeddings, Option.some.injEq] at hc
      rw [← hc]
      simp [hEncode]
    · rintro c hc
      exact absurd hc (by simp)
  | some c =>
    by_cases h : c.words = load_words fileLines
    · have hl := hWF c rfl
      refine ⟨?_, ?_, ?_⟩
      · simp only [reload_from_disk, load_or_create_embeddings, if_pos h]
        rw [hl, h]
      · rintro c' hc'
        simp only [reload_from_disk, load_or_create_embeddings, if_pos h,
          Option.some.injEq] at hc'
        rw [← hc']
        exact hWF c rfl
      · rintro c' hc' hne
        rw [Option.some.injEq] at hc'
        exact absurd (hc' ▸ h) hne
    · refine ⟨?_, ?_, ?_⟩
      · simp only [reload_from_disk, load_or_create_embeddings, if_neg h]
        exact hEncode _
      · rintro c' hc'
        simp only [reload_from_disk, load_or_create_embeddings, if_neg h,
          Option.some.injEq] at hc'
        rw [← hc']
        exact hEncode _
      · intro _ _ _
        simp [reload_from_disk, load_or_create_embeddings, if_neg h]

/-- Witness for `reload_from_disk_invariant`: a fresh selector (no cache
yet) ends aligned. -/
theorem reload_from_disk_invariant_witness :
    (∀ ws : List String, (ws.map String.length).length = ws.length) ∧
    ((reload_from_disk (fun ws => ws.map String.length) ["hallo"]
        (none : Option (CacheEntry ℕ))).1.2).length =
      ((reload_from_disk (fun ws => ws.map String.length) ["hallo"]
        (none : Option (CacheEntry ℕ))).1.1).length :=
  ⟨fun ws => by simp,
    (reload_from_disk_invariant (fun ws => ws.map String.length) ["hallo"] none
      (fun ws => by simp) (fun c h => nomatch h)).1⟩

/-- Model of `os.path.isabs` for POSIX paths: the path starts with `/`. -/
def isAbsPath (p : String) : Bool :=
  match p.data with
  | [] => false
  | c :: _ => c == '/'

/-- Model of `os.path.join dir name` for a relative `name` — the only way
`get_selector` calls it, guarded by the `os.path.isabs` branch. -/
def joinPath (dir name : String) : String := dir ++ "/" ++ name

/-- The candidate path `get_selector` normalizes and probes first: the
identifier itself when absolute, otherwise the identifier joined under the
curated-dictionaries root (`default_currated_dir`); `np` models
`os.path.normpath`. -/
def resolve_target (np : String → String) (curratedDir words_file : String) : String :=
  np (if isAbsPath words_file then words_file else joinPath curratedDir words_file)

/-- Embedding of the identifier-resolution logic of `get_selector`
(fine_tune.py lines 197-210), for the case where a `words_file` identifier
is supplied: probe the literal (normalized) path with `os.path.isfile`
(`isfile`, opaque), then the same path with `".txt"` appended, and raise
`FileNotFoundError` when neither exists.  Selector construction and
memoization after resolution are covered by the cache model above. -/
def resolve_dictionary (np : String → String) (isfile : String → Bool)
    (curratedDir words_file : String) : Except String String :=
  let target := resolve_target np curratedDir words_file
  if isfile target then .ok target
  else
    let alt := target ++ ".txt"
    if isfile alt then .ok alt
    else .error ("Dictionary file not found: " ++ target)

/-- C8: the resolver treats the identifier as an absolute path or as
relative to the curated-dictionaries root, tries the literal name first,
then the name with `".txt"` appended (so `"B1"` resolves to `B1.txt` when
only the latter exists), and fails with the not-found error when neither
candidate exists. -/
theorem resolve_dictionary_policy (np : String → String) (isfile : String → Bool)
    (curratedDir words_file : String) :
    (isfile (resolve_target np curratedDir words_file) = true →
      resolve_dictionary np isfile curratedDir words_file =
        .ok (resolve_target np curratedDir words_file)) ∧
    (isfile (resolve_target np curratedDir words_file) = false →
      isfile (resolve_target np curratedDir words_file ++ ".txt") = true →
      resolve_dictionary np isfile curratedDir words_file =
        .ok (resolve_target np curratedDir words_file ++ ".txt")) ∧
    (isfile (resolve_target np curratedDir words_file) = false →
      isfile (resolve_target np curratedDir words_file ++ ".txt") = false →
      resolve_dictionary np isfile curratedDir words_file =
        .error ("Dictionary file not found: " ++
          resolve_target np curratedDir words_file)) := by
  refine ⟨?_, ?_, ?_⟩
  · intro h
    simp [resolve_dictionary, h]
  · intro h1 h2
    simp [resolve_dictionary, h1, h2]
  · intro h1 h2
    simp [resolve_dictionary, h1, h2]

/-- Witness for `resolve_dictionary_policy`: the identifier `"B1"` resolves
to `currated_words/german/B1.txt` when only that file exists. -/
theorem resolve_dictionary_policy_witness :
    ((fun p => decide (p = "currated_words/german/B1.txt"))
        (resolve_target id "currated_words/german" "B1") = false ∧
      (fun p => decide (p = "currated_words/german/B1.txt"))
        (resolve_target id "currated_words/german" "B1" ++ ".txt") = true) ∧
    resolve_dictionary id (fun p => decide (p = "currated_words/german/B1.txt"))
      "currated_words/german" "B1" = .ok "currated_words/german/B1.txt" :=
  ⟨⟨by decide, by decide⟩,
    (resolve_dictionary_policy id
      (fun p => decide (p = "currated_words/german/B1.txt"))
      "currated_words/german" "B1").2.1 (by decide) (by decide)⟩

/-- The registry-scan-and-reload step of `build_dictionary_from_pdf`
(fine_tune.py lines 463-472): walk `selectors_cache.items()`, stop at the
first entry whose normalized path equals the normalized `out_path`, and
call `reload_from_disk()` on that selector.  `np` models
`os.path.normpath` and `reloadSel` the in-place reload; the returned flag
records whether any selector was reloaded.  When no entry matches,
`target_selector` stays `None` and nothing is reloaded. -/
def reload_first_match {σ : Type} (np : String → String) (out_path : String)
    (reloadSel : σ → σ) : List (String × σ) → List (String × σ) × Bool
  | [] => ([], false)
  | kv :: rest =>
    if np kv.1 = np out_path then ((kv.1, reloadSel kv.2) :: rest, true)
    else
      let r := reload_first_match np out_path reloadSel rest
      (kv :: r.1, r.2)

/-- The save-and-refresh tail of `build_dictionary_from_pdf` (fine_tune.py
lines 450-479): the registry scan runs only when both `save` and
`refresh_embeddings` are requested; otherwise the registry is untouched
and no rebuild happens. -/
def refresh_after_save {σ : Type} (np : String → String) (save refresh : Bool)
    (selectors_cache : List (String × σ)) (out_path : String) (reloadSel : σ → σ) :
    List (String × σ) × Bool :=
  if save && refresh then reload_first_match np out_path reloadSel selectors_cache
  else (selectors_cache, false)

theorem reload_first_match_flag {σ : Type} (np : String → String) (out_path : String)
    (reloadSel : σ → σ) (l : List (String × σ)) :
    ((reload_first_match np out_path reloadSel l).2 = true ↔
      ∃ kv ∈ l, np kv.1 = np out_path) := by
  induction l with
  | nil => simp [reload_first_match]
  | cons kv rest ih =>
    by_cases h : np kv.1 = np out_path <;>
      simp [reload_first_match, h, ih]

/-- C2 counterexample: saving a brand-new dictionary with
`refresh_embeddings: true` rebuilds nothing when no selector for that file
is in the registry yet — the scan finds no match and the operation returns
with the flag `false` and the registry untouched. -/
theorem refresh_after_save_c2_counterexample :
    refresh_after_save id true true ([] : List (String × ℕ)) "B1.txt" id =
      ([], false) := rfl

/-- C2 (amended): with save enabled, the embedding rebuild for the saved
file is triggered if and only if `refresh_embeddings` is requested AND a
selector whose normalized path matches the normalized target path is
already present in the registry; only then is a (first matching) selector
reloaded before the operation returns. -/
theorem refresh_after_save_iff {σ : Type} (np : String → String) (save refresh : Bool)
    (selectors_cache : List (String × σ)) (out_path : String) (reloadSel : σ → σ) :
    ((refresh_after_save np save refresh selectors_cache out_path reloadSel).2 = true ↔
      save = true ∧ refresh = true ∧
        ∃ kv ∈ selectors_cache, np kv.1 = np out_path) := by
  cases save <;> cases refresh <;>
    simp [refresh_after_save, reload_first_match_flag]

/-- One invocation of the `/speech-to-text` handler, abstracted over the
outcome of each fallible step: `has_audio` (the `audio` multipart field is
present), `filename_nonempty` (`audio_file.filename != ''`), `save_ok`
(whether `audio_file.save(temp_file.name)` succeeds), `transcribe_ok`
(whether the Whisper call and response assembly succeed). -/
structure SttRun where
  has_audio : Bool
  filename_nonempty : Bool
  save_ok : Bool
  transcribe_ok : Bool

/-- What the handler leaves behind: whether `NamedTemporaryFile` created a
file on disk during the run, whether that file still exists when the
response is returned, and whether the response reports success. -/
structure SttOutcome where
  temp_created : Bool
  temp_remains : Bool
  success : Bool
deriving DecidableEq

/-- Control-flow embedding of `speech_to_text` (fine_tune.py lines
599-652).  The two 400 returns precede file creation.
`NamedTemporaryFile(delete=False, suffix=...)` creates the file on disk;
`audio_file.save` runs inside the `with` block but BEFORE the
`try/finally`, so if it raises, the exception propagates to the outer
`except`, which returns the 500 response without running any cleanup and
the file stays (the context manager only closes the handle —
`delete=False`).  Failures inside the `try` reach the `finally`, which
unlinks the file on the success path and on the error path alike. -/
def speech_to_text (r : SttRun) : SttOutcome :=
  if !r.has_audio then ⟨false, false, false⟩
  else if !r.filename_nonempty then ⟨false, false, false⟩
  else if !r.save_ok then ⟨true, true, false⟩
  else if r.transcribe_ok then ⟨true, false, true⟩
  else ⟨true, false, false⟩

/-- C3: the temporary audio file is NOT deleted on every exit path.  When
the upload's `save` into the just-created temp file raises, the handler
returns the 500 error response with the file still on disk; on the paths
that reach the transcription `try` block the `finally` does delete it,
whether transcription succeeds or fails. -/
theorem speech_to_text_leaks_on_save_failure :
    (speech_to_text ⟨true, true, false, true⟩).temp_created = true ∧
    (speech_to_text ⟨true, true, false, true⟩).temp_remains = true ∧
    (speech_to_text ⟨true, true, true, true⟩).temp_remains = false ∧
    (speech_to_text ⟨true, true, true, false⟩).temp_remains = false :=
  ⟨rfl, rfl, rfl, rfl⟩

end Langu
